import Mathlib

/-!
Verification of the annotation-validation core of deriva-py
(`src/deriva/core/annotation.py`), as a shallow embedding in Lean 4.

JSON values are modelled by an inductive type; the model graph (tables,
columns, foreign keys) is modelled through the read-only interface the
validators use; each semantic-validator closure from the source is
translated into a Lean function returning `Option VError` (the first
`jsonschema.ValidationError` it would raise, if any).
-/

/-- A JSON value, the type of annotation instances and schema documents. -/
inductive JValue : Type
  | null : JValue
  | bool (b : Bool) : JValue
  | num (n : Int) : JValue
  | str (s : String) : JValue
  | arr (items : List JValue) : JValue
  | obj (fields : List (String × JValue)) : JValue

/-- A `jsonschema.ValidationError`, reduced to its message. -/
structure VError : Type where
  msg : String
deriving DecidableEq, Repr

/-- Python truthiness of a JSON value (`if not value: ...` in the source). -/
def JValue.truthy : JValue → Bool
  | .null => false
  | .bool b => b
  | .num n => n != 0
  | .str s => s != ""
  | .arr l => !l.isEmpty
  | .obj l => !l.isEmpty

/-- First-match association-list lookup (Python `dict` access). -/
def alookup {α : Type} : List (String × α) → String → Option α
  | [], _ => none
  | (k, v) :: rest, key => if k = key then some v else alookup rest key

/-- The single-quote character, as used by Python `repr` of strings. -/
def sqc : String := String.singleton (Char.ofNat 39)

/-- A string wrapped in single quotes. -/
def quoted (s : String) : String := sqc ++ s ++ sqc

mutual

/-- Python `repr` of a JSON value (enough of it for the error messages). -/
def pyRepr : JValue → String
  | .null => "None"
  | .bool true => "True"
  | .bool false => "False"
  | .num n => toString n
  | .str s => quoted s
  | .arr l => "[" ++ String.intercalate ", " (pyReprList l) ++ "]"
  | .obj l => "\x7b" ++ String.intercalate ", " (pyReprFields l) ++ "\x7d"

/-- Python `repr` of the elements of a JSON array. -/
def pyReprList : List JValue → List String
  | [] => []
  | v :: rest => pyRepr v :: pyReprList rest

/-- Python `repr` of the fields of a JSON object. -/
def pyReprFields : List (String × JValue) → List String
  | [] => []
  | (k, v) :: rest => (quoted k ++ ": " ++ pyRepr v) :: pyReprFields rest

end

/-- Python `str` of a JSON value (`'%s' % v`): a string stays bare, anything
else renders as its `repr`. -/
def pyStr : JValue → String
  | .str s => s
  | v => pyRepr v

/-- A table identity: `(schema name, table name)`. -/
abbrev Tid : Type := String × String

/-- Python rendering of `[table.schema.name, table.name]` in error messages. -/
def tidRepr (t : Tid) : String := "[" ++ quoted t.1 ++ ", " ++ quoted t.2 ++ "]"

/-- Modelled from the spec: a ForeignKey object of the external model graph
(`ermrest_model` is not part of the analysed sources), exposing `.table`
(child side) and `.pk_table` (parent side). -/
structure FKeyObj : Type where
  table : Tid
  pk_table : Tid
deriving DecidableEq, Repr

/-- Modelled from the spec: the read-only model graph interface used by the
semantic validators — `model.fkey(constraint_name)` returns the ForeignKey or
fails with a not-found error (`none`), and each table has the set of names of
its `column_definitions`. -/
structure ModelGraph : Type where
  fkey : JValue → Option FKeyObj
  cols : Tid → List String

/-- Does a JSON value have the `isinstance(x, list) and len(x) == 2` shape. -/
def isPair2 : JValue → Bool
  | .arr l => l.length == 2
  | _ => false

/-! ## valid-columns (`_validate_columns_fn`) -/

/-- A Table as seen by `_validate_columns_fn`: the names of its
`column_definitions`, its `keys` and its `foreign_keys`, each constraint given
as `(constraint_schema name or none, constraint_name)`; a `foreign_keys` slot
may itself be empty (`fk is None` in the source, skipped there). -/
structure Table : Type where
  columns : List String
  keys : List (Option String × String)
  foreign_keys : List (Option (Option String × String))

/-- Pooled key and foreign-key identities of a table
(`_key_names | _fkey_names` in the source, `None` schema rendered as `""`). -/
def constraintNames (T : Table) : List (String × String) :=
  T.keys.map (fun p => (p.1.getD "", p.2)) ++
    (T.foreign_keys.filterMap id).map (fun p => (p.1.getD "", p.2))

/-- Does `tuple(item)` occur among the pooled constraint identities
(a two-element JSON array equals a `(schema, name)` string pair
exactly when both elements are those strings). -/
def tupleMem (cns : List (String × String)) : List JValue → Bool
  | [JValue.str a, JValue.str b] => decide ((a, b) ∈ cns)
  | _ => false

/-- The element loop of `_validate_columns_fn`: raise on a string that is not
a column name or on a two-element list that is not a pooled constraint
identity; skip every other shape; the first violation is the error. -/
def colLoop (cols : List String) (cns : List (String × String)) : List JValue → Option VError
  | [] => none
  | item :: rest =>
    match item with
    | JValue.str s =>
      if s ∉ cols then some ⟨quoted s ++ " not found in column definitions"⟩
      else colLoop cols cns rest
    | JValue.arr l =>
      if l.length = 2 ∧ tupleMem cns l = false then
        some ⟨quoted (pyRepr (JValue.arr l)) ++ " not found in keys or foreign keys"⟩
      else colLoop cols cns rest
    | _ => colLoop cols cns rest

/-- The validation closure produced by `_validate_columns_fn` for a table:
no check when the keyword value is falsy or the instance is not a list. -/
def validate_columns_fn (T : Table) (value inst : JValue) : Option VError :=
  if value.truthy = false then none
  else match inst with
  | JValue.arr items => colLoop T.columns (constraintNames T) items
  | _ => none

/-! ## valid-foreign-keys (`_validate_foreign_keys_fn`) -/

/-- The per-pair check of `_validate_foreign_keys_fn`: the pair must resolve
to a ForeignKey of the whole model whose `pk_table` is the table under
validation. -/
def checkFKPair (m : ModelGraph) (tid : Tid) (item : JValue) : Option VError :=
  match m.fkey item with
  | none => some ⟨pyStr item ++ " not found in foreign keys of model"⟩
  | some fk =>
    if fk.pk_table ≠ tid then some ⟨pyStr item ++ " does not refer to " ++ quoted tid.2⟩
    else none

/-- The element loop of `_validate_foreign_keys_fn`: stop silently at the
first element that is not a two-element list; otherwise the first failing
pair is the error. -/
def fkLoop (m : ModelGraph) (tid : Tid) : List JValue → Option VError
  | [] => none
  | item :: rest =>
    if isPair2 item then
      match checkFKPair m tid item with
      | some e => some e
      | none => fkLoop m tid rest
    else none

/-- The validation closure produced by `_validate_foreign_keys_fn` for a
table: no check when the keyword value is falsy or the instance is not a
list. -/
def validate_foreign_keys_fn (m : ModelGraph) (tid : Tid) (value inst : JValue) : Option VError :=
  if value.truthy = false then none
  else match inst with
  | JValue.arr items => fkLoop m tid items
  | _ => none

/-! ## valid-source-entry (`_validate_source_entry_fn`) -/

/-- Outcome of one element of a source-entry path: advance to a (possibly
new) current table, fail, or silently stop the walk (`break`). -/
inductive StepRes : Type
  | ok (next : Tid)
  | err (e : VError)
  | halt

/-- The `outbound` direction step: the constraint must exist in the model and
its child (`table`) must be the current table; the walk advances to its
parent (`pk_table`). -/
def outboundStep (m : ModelGraph) (cur : Tid) (cn : JValue) : Except VError Tid :=
  match m.fkey cn with
  | none => Except.error ⟨pyStr cn ++ " not found in model fkeys"⟩
  | some fk =>
    if fk.table ≠ cur then
      Except.error ⟨"outbound foreign key " ++ pyStr cn ++ " not associated with " ++ tidRepr cur⟩
    else Except.ok fk.pk_table

/-- The `inbound` direction step: the constraint must exist in the model and
its parent (`pk_table`) must be the current table; the walk advances to its
child (`table`). -/
def inboundStep (m : ModelGraph) (cur : Tid) (cn : JValue) : Except VError Tid :=
  match m.fkey cn with
  | none => Except.error ⟨pyStr cn ++ " not found in model fkeys"⟩
  | some fk =>
    if fk.pk_table ≠ cur then
      Except.error ⟨"inbound foreign key " ++ pyStr cn ++ " not associated with " ++ tidRepr cur⟩
    else Except.ok fk.table

/-- The direction loop of the source-entry walk, in source order: first the
`outbound` key of the element if present, then the `inbound` key if present,
each threaded through the current table. -/
def dictStep (m : ModelGraph) (cur : Tid) (kvs : List (String × JValue)) : Except VError Tid :=
  match alookup kvs "outbound" with
  | some cn =>
    match outboundStep m cur cn with
    | Except.error e => Except.error e
    | Except.ok cur2 =>
      match alookup kvs "inbound" with
      | some cn2 => inboundStep m cur2 cn2
      | none => Except.ok cur2
  | none =>
    match alookup kvs "inbound" with
    | some cn2 => inboundStep m cur cn2
    | none => Except.ok cur

/-- The structural guard of the source entry element: the element is an
object one of whose `inbound`/`outbound` fields is a two-element list. -/
def dictGuard (kvs : List (String × JValue)) : Bool :=
  (match alookup kvs "inbound" with | some v => isPair2 v | none => false) ||
  (match alookup kvs "outbound" with | some v => isPair2 v | none => false)

/-- One element of the source-entry path walk: a string must be a column of
the current table; a guarded object is an fkey hop; anything else stops the
walk. -/
def sourceItemStep (m : ModelGraph) (cur : Tid) : JValue → StepRes
  | JValue.str s =>
    if s ∈ m.cols cur then StepRes.ok cur
    else StepRes.err ⟨quoted s ++ " not found in column definitions of table " ++ tidRepr cur⟩
  | JValue.obj kvs =>
    if dictGuard kvs then
      match dictStep m cur kvs with
      | Except.ok next => StepRes.ok next
      | Except.error e => StepRes.err e
    else StepRes.halt
  | _ => StepRes.halt

/-- The source-entry path walk: current table threaded sequentially from the
starting table; the first failing element is the error; a halting element
ends the walk without error. -/
def walkSourcePath (m : ModelGraph) : Tid → List JValue → Option VError
  | _, [] => none
  | cur, item :: rest =>
    match sourceItemStep m cur item with
    | StepRes.ok next => walkSourcePath m next rest
    | StepRes.err e => some e
    | StepRes.halt => none

/-- The validation closure produced by `_validate_source_entry_fn` for the
table `tid`: a string instance must be one of the table's own column names; a
list instance is walked as a foreign-key path starting at `tid`; any other
instance is ignored, as is everything when the keyword value is falsy. -/
def validate_source_entry_fn (m : ModelGraph) (tid : Tid) (value inst : JValue) : Option VError :=
  if value.truthy = false then none
  else match inst with
  | JValue.str s =>
    if s ∈ m.cols tid then none
    else some ⟨quoted s ++ " not found in column definitions"⟩
  | JValue.arr items => walkSourcePath m tid items
  | _ => none

/-! ## The validation orchestrator (`validate` / `_validate`) -/

/-- A model object as the orchestrator sees it: a container of annotations
(tag name to JSON value, in insertion order). -/
structure Obj : Type where
  annotations : List (String × JValue)

/-- The exceptions that the orchestrator's `try` block can observe:
`jsonschema.ValidationError`, `KeyError`, `FileNotFoundError`, or any other
exception (which its handlers would not catch). -/
inductive PyExc : Type
  | validationError (e : VError)
  | keyError (k : String)
  | fileNotFound
  | other (s : String)

/-- Modelled from the spec: the process environment of the orchestrator —
the reverse tag registry built from `ermrest_model.tag` (tag canonical name
to abbreviation; canonical names are dotted identifiers, never the empty
string), the schema-resource loader (`pkgutil.get_data` plus `json.loads`,
`none` being a `FileNotFoundError`), and the draft-07 engine extended with
the semantic keywords bound to the model object, which raises the first
`ValidationError` or succeeds. -/
structure Env : Type where
  abbrevOf : String → Option String
  getData : String → Option JValue
  engine : JValue → Obj → JValue → Except VError Unit
  abbrevOf_empty : abbrevOf "" = none

/-- The process-wide schema cache `_AnnotationSchemas._schemas`
(tag name to parsed schema document). -/
abbrev Cache : Type := List (String × JValue)

/-- `_AnnotationSchemas.__getitem__`: return the cached document, else
resolve the abbreviation (`KeyError` if the tag is unknown), load and parse
the resource (`FileNotFoundError` if missing), cache it and return it. -/
def getSchema (env : Env) (c : Cache) (t : String) : Except PyExc (JValue × Cache) :=
  match alookup c t with
  | some v => Except.ok (v, c)
  | none =>
    match env.abbrevOf t with
    | none => Except.error (PyExc.keyError t)
    | some ab =>
      match env.getData ab with
      | none => Except.error PyExc.fileNotFound
      | some v => Except.ok (v, (t, v) :: c)

/-- The `try` block of `_validate`: if the tag is present among the object's
annotations, fetch its schema and run the extended engine on the annotation
value; the cache resulting from any schema load survives even when an
exception follows. -/
def tryBody (env : Env) (obj : Obj) (t : String) (c : Cache) : Except PyExc Unit × Cache :=
  match alookup obj.annotations t with
  | none => (Except.ok (), c)
  | some v =>
    match getSchema env c t with
    | Except.error e => (Except.error e, c)
    | Except.ok (schema, c2) =>
      match env.engine schema obj v with
      | Except.ok _ => (Except.ok (), c2)
      | Except.error ve => (Except.error (PyExc.validationError ve), c2)

/-- The synthesized error for an unregistered tag
(`'Unknown annotation tag name "%s"' % tag_name`). -/
def unknownTagError (t : String) : VError :=
  ⟨"Unknown annotation tag name \"" ++ t ++ "\""⟩

/-- `_validate`: run the `try` block and reduce its outcome — a
`ValidationError` becomes a one-element list, a `KeyError` becomes the
unknown-tag error, a `FileNotFoundError` is swallowed, success is the empty
list; any other exception would propagate. -/
def validateTagE (env : Env) (obj : Obj) (t : String) (c : Cache) : Except PyExc (List VError × Cache) :=
  match tryBody env obj t c with
  | (Except.ok _, c2) => Except.ok ([], c2)
  | (Except.error (PyExc.validationError e), c2) => Except.ok ([e], c2)
  | (Except.error (PyExc.keyError _), c2) => Except.ok ([unknownTagError t], c2)
  | (Except.error PyExc.fileNotFound, c2) => Except.ok ([], c2)
  | (Except.error (PyExc.other s), _) => Except.error (PyExc.other s)

/-- The tag loop of `validate` without an explicit tag: validate each listed
tag in order and concatenate the error lists, threading the schema cache. -/
def validateListE (env : Env) (obj : Obj) : List String → Cache → Except PyExc (List VError × Cache)
  | [], c => Except.ok ([], c)
  | t :: ts, c =>
    match validateTagE env obj t c with
    | Except.error e => Except.error e
    | Except.ok (errs, c2) =>
      match validateListE env obj ts c2 with
      | Except.error e => Except.error e
      | Except.ok (rest, c3) => Except.ok (errs ++ rest, c3)

/-- The public `validate(model_obj, tag_name=None)`: a falsy tag argument
(`None` or the empty string, `if not tag_name:` in the source) validates
every annotation of the object; otherwise the single tag is validated. -/
def validate (env : Env) (obj : Obj) (tagOpt : Option String) (c : Cache) : Except PyExc (List VError × Cache) :=
  match tagOpt with
  | none => validateListE env obj (obj.annotations.map Prod.fst) c
  | some t =>
    if t = "" then validateListE env obj (obj.annotations.map Prod.fst) c
    else validateTagE env obj t c

/-! ## Cache-independent description of the orchestrator's outcome -/

/-- The schema outcome for a tag ignoring the cache: abbreviation lookup
then resource load. -/
def canonSchema (env : Env) (t : String) : Except PyExc JValue :=
  match env.abbrevOf t with
  | none => Except.error (PyExc.keyError t)
  | some ab =>
    match env.getData ab with
    | none => Except.error PyExc.fileNotFound
    | some v => Except.ok v

/-- The effective schema outcome for a tag from a given cache state: the
cached document if present, else the canonical load outcome. -/
def effSchema (env : Env) (c : Cache) (t : String) : Except PyExc JValue :=
  match alookup c t with
  | some v => Except.ok v
  | none => canonSchema env t

/-- The error list `_validate` produces for one tag, described through the
effective schema outcome. -/
def effTagErrors (env : Env) (obj : Obj) (c : Cache) (t : String) : List VError :=
  match alookup obj.annotations t with
  | none => []
  | some v =>
    match effSchema env c t with
    | Except.error (PyExc.keyError _) => [unknownTagError t]
    | Except.error _ => []
    | Except.ok schema =>
      match env.engine schema obj v with
      | Except.ok _ => []
      | Except.error e => [e]

/-- The error list `validate` produces, described through the effective
schema outcomes. -/
def effResult (env : Env) (obj : Obj) (c : Cache) : Option String → List VError
  | none => (obj.annotations.map Prod.fst).flatMap (effTagErrors env obj c)
  | some t =>
    if t = "" then (obj.annotations.map Prod.fst).flatMap (effTagErrors env obj c)
    else effTagErrors env obj c t

/-! ## Concrete examples -/

/-- Example model for the source-entry walk: `T1 --FK_out--> T2`,
`FK_out` named `("s", "FK_out")`, child `T1`, parent `T2`. -/
def exFkeyC1 : JValue → Option FKeyObj
  | JValue.arr [JValue.str "s", JValue.str "FK_out"] =>
    some ⟨("s1", "T1"), ("s1", "T2")⟩
  | _ => none

/-- Columns of the example tables: `T1` has `id`, `T2` has `X`. -/
def exColsC1 : Tid → List String
  | ("s1", "T1") => ["id"]
  | ("s1", "T2") => ["X"]
  | _ => []

/-- The example model graph for the source-entry walk. -/
def exModelC1 : ModelGraph := ⟨exFkeyC1, exColsC1⟩

/-- The constraint name `["s", "FK_out"]` as a JSON value. -/
def exPairFKout : JValue := JValue.arr [JValue.str "s", JValue.str "FK_out"]

/-- Example model for valid-foreign-keys: `(s, FK1)` has parent `("s", "T")`,
`(s, FK2)` has parent `("s", "Other")`. -/
def exFkeyC2 : JValue → Option FKeyObj
  | JValue.arr [JValue.str "s", JValue.str "FK1"] =>
    some ⟨("s", "C1"), ("s", "T")⟩
  | JValue.arr [JValue.str "s", JValue.str "FK2"] =>
    some ⟨("s", "C2"), ("s", "Other")⟩
  | _ => none

/-- The example model graph for valid-foreign-keys. -/
def exModelC2 : ModelGraph := ⟨exFkeyC2, fun _ => []⟩

/-- The constraint name `["s", "FK2"]` as a JSON value. -/
def exPairFK2 : JValue := JValue.arr [JValue.str "s", JValue.str "FK2"]

/-- Example table for valid-columns: columns `{A, B}`, one key
`(schema1, K1)`, no foreign keys. -/
def exTableC3 : Table := ⟨["A", "B"], [(some "schema1", "K1")], []⟩

/-- An example reverse tag registry with two registered tags. -/
def envAbbrev1 : String → Option String
  | "t.a" => some "a"
  | "t.b" => some "b"
  | _ => none

/-- An engine that fails on every instance. -/
def engineFail : JValue → Obj → JValue → Except VError Unit :=
  fun _ _ _ => Except.error ⟨"bad"⟩

/-- An engine that accepts every instance. -/
def engineOk : JValue → Obj → JValue → Except VError Unit :=
  fun _ _ _ => Except.ok ()

/-- An environment whose engine rejects everything. -/
def exEnvFail : Env := ⟨envAbbrev1, fun _ => some (JValue.bool true), engineFail, by decide⟩

/-- An environment with an empty tag registry. -/
def exEnvUnreg : Env := ⟨fun _ => none, fun _ => none, engineOk, rfl⟩

/-- An environment where every schema resource is missing. -/
def exEnvMissing : Env := ⟨envAbbrev1, fun _ => none, engineOk, by decide⟩

/-- An object with no annotations. -/
def exObjEmpty : Obj := ⟨[]⟩

/-- An object with one annotation under the registered tag `t.a`. -/
def exObjA : Obj := ⟨[("t.a", JValue.null)]⟩

/-- An object with annotations under the registered tags `t.a` and `t.b`. -/
def exObjAB : Obj := ⟨[("t.a", JValue.null), ("t.b", JValue.null)]⟩

/-- A violating element of a valid-columns instance, stated from the spec:
a string that is not a column name, or a two-element list that is not a
pooled Key/ForeignKey identity; every other shape is not this validator's
concern. -/
def columnsSpecBad (T : Table) : JValue → Bool
  | JValue.str s => decide (s ∉ T.columns)
  | JValue.arr l => decide (l.length = 2) && !(tupleMem (constraintNames T) l)
  | _ => false

/-! ## Lemmas and theorems -/

theorem colLoop_none_iff (T : Table) (items : List JValue) :
    colLoop T.columns (constraintNames T) items = none ↔
      ∀ item ∈ items, columnsSpecBad T item = false := by
  induction items with
  | nil => simp [colLoop]
  | cons item rest ih =>
    cases item with
    | str s =>
      by_cases h : s ∈ T.columns
      · simp [colLoop, columnsSpecBad, h, ih]
      · simp [colLoop, columnsSpecBad, h]
    | arr l =>
      by_cases h : l.length = 2 ∧ tupleMem (constraintNames T) l = false
      · have hb : (decide (l.length = 2) && !(tupleMem (constraintNames T) l)) = true := by
          simp [h.1, h.2]
        simp [colLoop, if_pos h, columnsSpecBad, hb]
      · have hb : (decide (l.length = 2) && !(tupleMem (constraintNames T) l)) = false := by
          by_cases h2 : l.length = 2
          · cases ht : tupleMem (constraintNames T) l
            · exact absurd ⟨h2, ht⟩ h
            · simp [h2, ht]
          · simp [h2]
        simp [colLoop, if_neg h, columnsSpecBad, hb, ih]
    | null => simp [colLoop, columnsSpecBad, ih]
    | bool b => simp [colLoop, columnsSpecBad, ih]
    | num n => simp [colLoop, columnsSpecBad, ih]
    | obj kvs => simp [colLoop, columnsSpecBad, ih]

/-- C3: for a table with column definitions, keys and foreign keys, the
valid-columns validator (keyword enabled) on a list instance reports an error
exactly when some element is a string that is not a column name or a
two-element list whose pair is not a pooled Key/ForeignKey identity, all
other element shapes being silently skipped; and on the table with columns
`{A, B}` and key `(schema1, K1)`, the instance `["A", ["schema1", "K1"], "C"]`
yields exactly the one error referencing `"C"`. -/
theorem valid_columns_characterization :
    (∀ (T : Table) (items : List JValue),
      validate_columns_fn T (JValue.bool true) (JValue.arr items) = none ↔
        ∀ item ∈ items, columnsSpecBad T item = false) ∧
    validate_columns_fn exTableC3 (JValue.bool true)
        (JValue.arr [JValue.str "A", JValue.arr [JValue.str "schema1", JValue.str "K1"], JValue.str "C"])
      = some ⟨quoted "C" ++ " not found in column definitions"⟩ := by
  constructor
  · intro T items
    simp only [validate_columns_fn, JValue.truthy]
    exact colLoop_none_iff T items
  · decide

/-- Witness for C3: the validator applied to an instance with no violating
element yields no error. -/
theorem valid_columns_characterization_witness :
    validate_columns_fn exTableC3 (JValue.bool true) (JValue.arr [JValue.str "A"]) = none :=
  (valid_columns_characterization.1 exTableC3 [JValue.str "A"]).mpr (by decide)

theorem fkLoop_eq_takeWhile (m : ModelGraph) (tid : Tid) (items : List JValue) :
    fkLoop m tid items = (items.takeWhile isPair2).findSome? (checkFKPair m tid) := by
  induction items with
  | nil => simp [fkLoop]
  | cons item rest ih =>
    cases hp : isPair2 item with
    | false => simp [fkLoop, hp, List.takeWhile_cons, List.findSome?]
    | true =>
      cases hc : checkFKPair m tid item with
      | none => simp [fkLoop, hp, hc, List.takeWhile_cons, List.findSome?_cons, ih]
      | some e => simp [fkLoop, hp, hc, List.takeWhile_cons, List.findSome?_cons]

/-- C2: the valid-foreign-keys validator (keyword enabled) on a list instance
checks exactly the elements preceding the first element that is not a
two-element list — the loop result equals the first error produced by the
per-pair check over that `takeWhile` prefix, so later elements are never
checked; and on the model where the table `("s", "T")` is the parent of
`(s, FK1)` but not of `(s, FK2)`, the instance `[["s","FK1"], ["s","FK2"]]`
yields exactly the one error referencing `FK2`. -/
theorem valid_foreign_keys_prefix :
    (∀ (m : ModelGraph) (tid : Tid) (items : List JValue),
      validate_foreign_keys_fn m tid (JValue.bool true) (JValue.arr items) =
        (items.takeWhile isPair2).findSome? (checkFKPair m tid)) ∧
    validate_foreign_keys_fn exModelC2 ("s", "T") (JValue.bool true)
        (JValue.arr [JValue.arr [JValue.str "s", JValue.str "FK1"], exPairFK2])
      = some ⟨pyStr exPairFK2 ++ " does not refer to " ++ quoted "T"⟩ := by
  constructor
  · intro m tid items
    simp only [validate_foreign_keys_fn, JValue.truthy]
    exact fkLoop_eq_takeWhile m tid items
  · decide

/-- C1: the valid-source-entry validator built for a table with column
definitions and a schema back-reference, when enabled, checks a list
instance as a foreign-key path threaded sequentially from that table: a
string element must be a column of the current table; an
`{"outbound": [s, n]}` element requires the constraint to exist in the model
with child (`table`) equal to the current table and advances to its parent
(`pk_table`); an `{"inbound": [s, n]}` element requires its parent to equal
the current table and advances to the child. On the model
`T1 --FK_out--> T2` with column `X` on `T2`, the instance
`[{"outbound": ["s","FK_out"]}, "X"]` starting at `T1` yields no error and
`[{"inbound": ["s","FK_out"]}, "X"]` yields an error, `T1` not being the
parent side of `FK_out`. -/
theorem valid_source_entry_path_walk :
    (∀ (m : ModelGraph) (tid : Tid) (items : List JValue),
      validate_source_entry_fn m tid (JValue.bool true) (JValue.arr items) =
        walkSourcePath m tid items) ∧
    (∀ (m : ModelGraph) (cur : Tid) (s : String) (rest : List JValue),
      walkSourcePath m cur (JValue.str s :: rest) =
        if s ∈ m.cols cur then walkSourcePath m cur rest
        else some ⟨quoted s ++ " not found in column definitions of table " ++ tidRepr cur⟩) ∧
    (∀ (m : ModelGraph) (cur : Tid) (a b : String) (rest : List JValue),
      walkSourcePath m cur
          (JValue.obj [("outbound", JValue.arr [JValue.str a, JValue.str b])] :: rest) =
        match m.fkey (JValue.arr [JValue.str a, JValue.str b]) with
        | none => some ⟨pyStr (JValue.arr [JValue.str a, JValue.str b]) ++ " not found in model fkeys"⟩
        | some fk =>
          if fk.table = cur then walkSourcePath m fk.pk_table rest
          else some ⟨"outbound foreign key " ++ pyStr (JValue.arr [JValue.str a, JValue.str b]) ++
                     " not associated with " ++ tidRepr cur⟩) ∧
    (∀ (m : ModelGraph) (cur : Tid) (a b : String) (rest : List JValue),
      walkSourcePath m cur
          (JValue.obj [("inbound", JValue.arr [JValue.str a, JValue.str b])] :: rest) =
        match m.fkey (JValue.arr [JValue.str a, JValue.str b]) with
        | none => some ⟨pyStr (JValue.arr [JValue.str a, JValue.str b]) ++ " not found in model fkeys"⟩
        | some fk =>
          if fk.pk_table = cur then walkSourcePath m fk.table rest
          else some ⟨"inbound foreign key " ++ pyStr (JValue.arr [JValue.str a, JValue.str b]) ++
                     " not associated with " ++ tidRepr cur⟩) ∧
    validate_source_entry_fn exModelC1 ("s1", "T1") (JValue.bool true)
        (JValue.arr [JValue.obj [("outbound", exPairFKout)], JValue.str "X"]) = none ∧
    validate_source_entry_fn exModelC1 ("s1", "T1") (JValue.bool true)
        (JValue.arr [JValue.obj [("inbound", exPairFKout)], JValue.str "X"])
      = some ⟨"inbound foreign key " ++ pyStr exPairFKout ++
              " not associated with " ++ tidRepr ("s1", "T1")⟩ := by
  refine ⟨?_, ?_, ?_, ?_, ?_, ?_⟩
  · intro m tid items
    simp [validate_source_entry_fn, JValue.truthy]
  · intro m cur s rest
    by_cases h : s ∈ m.cols cur <;>
      simp [walkSourcePath, sourceItemStep, h]
  · intro m cur a b rest
    cases hf : m.fkey (JValue.arr [JValue.str a, JValue.str b]) with
    | none =>
      simp [walkSourcePath, sourceItemStep, dictGuard, dictStep, outboundStep, alookup, isPair2, hf]
    | some fk =>
      by_cases h : fk.table = cur
      · simp [walkSourcePath, sourceItemStep, dictGuard, dictStep, outboundStep, alookup, isPair2, hf, h]
      · simp [walkSourcePath, sourceItemStep, dictGuard, dictStep, outboundStep, alookup, isPair2, hf, h]
  · intro m cur a b rest
    cases hf : m.fkey (JValue.arr [JValue.str a, JValue.str b]) with
    | none =>
      simp [walkSourcePath, sourceItemStep, dictGuard, dictStep, inboundStep, alookup, isPair2, hf]
    | some fk =>
      by_cases h : fk.pk_table = cur
      · simp [walkSourcePath, sourceItemStep, dictGuard, dictStep, inboundStep, alookup, isPair2, hf, h]
      · simp [walkSourcePath, sourceItemStep, dictGuard, dictStep, inboundStep, alookup, isPair2, hf, h]
  · decide
  · decide

theorem effTagErrors_congr (env : Env) (obj : Obj) {c c2 : Cache}
    (h : ∀ u, effSchema env c2 u = effSchema env c u) (t : String) :
    effTagErrors env obj c2 t = effTagErrors env obj c t := by
  unfold effTagErrors
  rw [h t]

theorem validateTagE_eff (env : Env) (obj : Obj) (t : String) (c : Cache) :
    ∃ c2, validateTagE env obj t c = Except.ok (effTagErrors env obj c t, c2) ∧
      ∀ u, effSchema env c2 u = effSchema env c u := by
  cases ha : alookup obj.annotations t with
  | none =>
    exact ⟨c, by simp [validateTagE, tryBody, ha, effTagErrors], fun u => rfl⟩
  | some v =>
    cases hc : alookup c t with
    | some w =>
      cases he : env.engine w obj v with
      | ok u =>
        exact ⟨c, by simp [validateTagE, tryBody, ha, getSchema, hc, he, effTagErrors, effSchema],
               fun u => rfl⟩
      | error e =>
        exact ⟨c, by simp [validateTagE, tryBody, ha, getSchema, hc, he, effTagErrors, effSchema],
               fun u => rfl⟩
    | none =>
      cases hab : env.abbrevOf t with
      | none =>
        exact ⟨c, by simp [validateTagE, tryBody, ha, getSchema, hc, hab, effTagErrors, effSchema,
                           canonSchema],
               fun u => rfl⟩
      | some ab =>
        cases hd : env.getData ab with
        | none =>
          exact ⟨c, by simp [validateTagE, tryBody, ha, getSchema, hc, hab, hd, effTagErrors,
                             effSchema, canonSchema],
                 fun u => rfl⟩
        | some w =>
          have hpt : ∀ u, effSchema env ((t, w) :: c) u = effSchema env c u := by
            intro u
            by_cases hu : t = u
            · subst hu
              simp [effSchema, alookup, hc, canonSchema, hab, hd]
            · simp [effSchema, alookup, hu]
          cases he : env.engine w obj v with
          | ok u =>
            exact ⟨(t, w) :: c,
              by simp [validateTagE, tryBody, ha, getSchema, hc, hab, hd, he, effTagErrors,
                       effSchema, canonSchema],
              hpt⟩
          | error e =>
            exact ⟨(t, w) :: c,
              by simp [validateTagE, tryBody, ha, getSchema, hc, hab, hd, he, effTagErrors,
                       effSchema, canonSchema],
              hpt⟩

theorem validateListE_eff (env : Env) (obj : Obj) (ts : List String) (c : Cache) :
    ∃ c2, validateListE env obj ts c = Except.ok (ts.flatMap (effTagErrors env obj c), c2) ∧
      ∀ u, effSchema env c2 u = effSchema env c u := by
  induction ts generalizing c with
  | nil => exact ⟨c, by simp [validateListE], fun u => rfl⟩
  | cons t ts ih =>
    obtain ⟨c1, h1, hp1⟩ := validateTagE_eff env obj t c
    obtain ⟨c2, h2, hp2⟩ := ih c1
    have hfix : ts.flatMap (effTagErrors env obj c1) = ts.flatMap (effTagErrors env obj c) :=
      congrArg (List.flatMap ts) (funext (effTagErrors_congr env obj hp1))
    refine ⟨c2, ?_, fun u => (hp2 u).trans (hp1 u)⟩
    simp [validateListE, h1, h2, hfix]

theorem validate_eff (env : Env) (obj : Obj) (tagOpt : Option String) (c : Cache) :
    ∃ c2, validate env obj tagOpt c = Except.ok (effResult env obj c tagOpt, c2) ∧
      ∀ u, effSchema env c2 u = effSchema env c u := by
  cases tagOpt with
  | none =>
    obtain ⟨c2, h, hp⟩ := validateListE_eff env obj (obj.annotations.map Prod.fst) c
    exact ⟨c2, by simpa [validate, effResult] using h, hp⟩
  | some t =>
    by_cases ht : t = ""
    · subst ht
      obtain ⟨c2, h, hp⟩ := validateListE_eff env obj (obj.annotations.map Prod.fst) c
      exact ⟨c2, by simpa [validate, effResult] using h, hp⟩
    · obtain ⟨c2, h, hp⟩ := validateTagE_eff env obj t c
      exact ⟨c2, by simpa [validate, effResult, ht] using h, hp⟩

theorem effResult_congr (env : Env) (obj : Obj) {c c2 : Cache}
    (h : ∀ u, effSchema env c2 u = effSchema env c u) (tagOpt : Option String) :
    effResult env obj c2 tagOpt = effResult env obj c tagOpt := by
  have hfix : effTagErrors env obj c2 = effTagErrors env obj c :=
    funext (effTagErrors_congr env obj h)
  unfold effResult
  rw [hfix]

theorem validateTag_absent (env : Env) (obj : Obj) (t : String) (c : Cache)
    (h : alookup obj.annotations t = none) :
    validateTagE env obj t c = Except.ok ([], c) := by
  simp [validateTagE, tryBody, h]

theorem effTagErrors_length (env : Env) (obj : Obj) (c : Cache) (t : String) :
    (effTagErrors env obj c t).length ≤ 1 := by
  unfold effTagErrors
  split
  · simp
  · split
    · simp
    · simp
    · split <;> simp

/-- C5: the public `validate` never propagates an exception: for every
environment, model object, tag argument (including none and the empty
string) and cache state, the call evaluates to an `ok` result carrying an
error list — every schema violation, unknown tag, or missing schema resource
raised inside one `(obj, tag)` validation is converted into the list or
swallowed. -/
theorem validate_never_raises :
    ∀ (env : Env) (obj : Obj) (tagOpt : Option String) (c : Cache),
      ∃ res, validate env obj tagOpt c = Except.ok res := by
  intro env obj tagOpt c
  obtain ⟨c2, h, _⟩ := validate_eff env obj tagOpt c
  exact ⟨_, h⟩

/-- C8 counterexample: with the tag argument `""` — a non-None tag — the
public dispatch treats the tag as falsy and validates all annotations, so an
object with two failing annotations yields a two-element error list. -/
theorem validate_empty_tag_two_errors :
    validate exEnvFail exObjAB (some "") [] =
      Except.ok ([⟨"bad"⟩, ⟨"bad"⟩],
                 [("t.b", JValue.bool true), ("t.a", JValue.bool true)]) ∧
    ¬ ([(⟨"bad"⟩ : VError), ⟨"bad"⟩].length ≤ 1) := by
  exact ⟨rfl, by decide⟩

/-- C8 amended: for every non-None, non-empty tag, `validate` returns a list
of length at most one — only the first schema-validation error of the
`(obj, tag)` pair is reported. -/
theorem validate_single_tag_at_most_one_error :
    ∀ (env : Env) (obj : Obj) (t : String) (c : Cache), t ≠ "" →
      ∃ errs c2, validate env obj (some t) c = Except.ok (errs, c2) ∧
        errs.length ≤ 1 := by
  intro env obj t c ht
  obtain ⟨c2, h, _⟩ := validate_eff env obj (some t) c
  have hr : effResult env obj c (some t) = effTagErrors env obj c t := by
    simp [effResult, ht]
  refine ⟨effResult env obj c (some t), c2, h, ?_⟩
  rw [hr]
  exact effTagErrors_length env obj c t

/-- Witness for C8 amended at a concrete environment and tag. -/
theorem validate_single_tag_at_most_one_error_witness :
    ("t.a" ≠ "") ∧
    ∃ errs c2, validate exEnvFail exObjA (some "t.a") [] = Except.ok (errs, c2) ∧
      errs.length ≤ 1 :=
  ⟨by decide, validate_single_tag_at_most_one_error exEnvFail exObjA "t.a" [] (by decide)⟩

/-- C9: two successive `validate` calls with the object unchanged give the
same error list — the lazy schema cache populated by the first call never
alters the outcome of the second, for every tag argument and every starting
cache state. -/
theorem validate_idempotent :
    ∀ (env : Env) (obj : Obj) (tagOpt : Option String) (c : Cache)
      (r1 : List VError) (c1 : Cache) (r2 : List VError) (c2 : Cache),
      validate env obj tagOpt c = Except.ok (r1, c1) →
      validate env obj tagOpt c1 = Except.ok (r2, c2) → r1 = r2 := by
  intro env obj tagOpt c r1 c1 r2 c2 h1 h2
  obtain ⟨d1, e1, p1⟩ := validate_eff env obj tagOpt c
  rw [h1] at e1
  injection e1 with e1p
  injection e1p with hr1 hcd1
  obtain ⟨d2, e2, p2⟩ := validate_eff env obj tagOpt c1
  rw [h2] at e2
  injection e2 with e2p
  injection e2p with hr2 hcd2
  rw [hr1, hr2]
  exact (effResult_congr env obj (fun u => by rw [hcd1]; exact p1 u) tagOpt).symm

/-- Witness for C9: a first call that loads and caches a schema and fails,
then an identical second call served from the cache. -/
theorem validate_idempotent_witness :
    validate exEnvFail exObjA (some "t.a") [] =
        Except.ok ([⟨"bad"⟩], [("t.a", JValue.bool true)]) ∧
    validate exEnvFail exObjA (some "t.a") [("t.a", JValue.bool true)] =
        Except.ok ([⟨"bad"⟩], [("t.a", JValue.bool true)]) ∧
    ([(⟨"bad"⟩ : VError)] : List VError) = [⟨"bad"⟩] :=
  ⟨rfl, rfl,
   validate_idempotent exEnvFail exObjA (some "t.a") [] [⟨"bad"⟩]
     [("t.a", JValue.bool true)] [⟨"bad"⟩] [("t.a", JValue.bool true)] rfl rfl⟩

/-- C6: for a registered tag absent from the object's annotations,
`validate` is a no-op returning the empty list with the cache untouched —
for every environment, model object and cache, so nothing of the object
beyond the presence of the tag among its annotation keys is consulted. -/
theorem validate_absent_tag_noop :
    ∀ (env : Env) (obj : Obj) (t : String) (c : Cache),
      (env.abbrevOf t).isSome = true → alookup obj.annotations t = none →
      validate env obj (some t) c = Except.ok ([], c) := by
  intro env obj t c hreg habs
  have ht : t ≠ "" := by
    intro h
    subst h
    rw [env.abbrevOf_empty] at hreg
    simp at hreg
  simp only [validate, if_neg ht]
  exact validateTag_absent env obj t c habs

/-- Witness for C6 at a registered tag and an object with no annotations. -/
theorem validate_absent_tag_noop_witness :
    (exEnvFail.abbrevOf "t.a").isSome = true ∧
    alookup exObjEmpty.annotations "t.a" = none ∧
    validate exEnvFail exObjEmpty (some "t.a") [] = Except.ok ([], []) :=
  ⟨rfl, rfl, validate_absent_tag_noop exEnvFail exObjEmpty "t.a" [] rfl rfl⟩

/-- C7: for a registered tag present on the object whose schema resource is
missing (the load fails with a not-found condition, the tag not yet cached),
`validate` swallows the condition and returns the empty list. -/
theorem validate_missing_schema_soft :
    ∀ (env : Env) (obj : Obj) (t : String) (c : Cache) (v : JValue) (ab : String),
      alookup obj.annotations t = some v → env.abbrevOf t = some ab →
      env.getData ab = none → alookup c t = none →
      validate env obj (some t) c = Except.ok ([], c) := by
  intro env obj t c v ab hp hab hd hc
  have ht : t ≠ "" := by
    intro h
    subst h
    rw [env.abbrevOf_empty] at hab
    exact Option.noConfusion hab
  simp [validate, ht, validateTagE, tryBody, hp, getSchema, hc, hab, hd]

/-- Witness for C7 at an environment whose schema resources are all
missing. -/
theorem validate_missing_schema_soft_witness :
    alookup exObjA.annotations "t.a" = some JValue.null ∧
    exEnvMissing.abbrevOf "t.a" = some "a" ∧
    exEnvMissing.getData "a" = none ∧
    alookup ([] : Cache) "t.a" = none ∧
    validate exEnvMissing exObjA (some "t.a") [] = Except.ok ([], []) :=
  ⟨rfl, rfl, rfl, rfl,
   validate_missing_schema_soft exEnvMissing exObjA "t.a" [] JValue.null "a" rfl rfl rfl rfl⟩

/-- C4 counterexample: a tag with no registered abbreviation that is absent
from the object's annotations yields the empty list, not exactly one
error — the presence check precedes the registry lookup. -/
theorem validate_unknown_absent_tag_empty :
    exEnvUnreg.abbrevOf "org.ex.t" = none ∧
    validate exEnvUnreg exObjEmpty (some "org.ex.t") [] = Except.ok ([], []) ∧
    ¬ (([] : List VError).length = 1) :=
  ⟨rfl, rfl, by decide⟩

/-- C4 amended: for a non-empty unregistered tag that is present among the
object's annotations (and not already cached), `validate` returns exactly
one error, whose message embeds the tag name, without raising. -/
theorem validate_unknown_tag_present :
    ∀ (env : Env) (obj : Obj) (t : String) (c : Cache) (v : JValue), t ≠ "" →
      env.abbrevOf t = none → alookup c t = none →
      alookup obj.annotations t = some v →
      validate env obj (some t) c = Except.ok ([unknownTagError t], c) ∧
      ∃ a b, (unknownTagError t).msg = a ++ t ++ b := by
  intro env obj t c v ht hab hc hp
  constructor
  · simp [validate, ht, validateTagE, tryBody, hp, getSchema, hc, hab]
  · exact ⟨"Unknown annotation tag name \"", "\"", rfl⟩

/-- Witness for C4 amended: a present annotation under a tag the registry
does not know. -/
theorem validate_unknown_tag_present_witness :
    ("t.a" ≠ "") ∧ exEnvUnreg.abbrevOf "t.a" = none ∧
    alookup ([] : Cache) "t.a" = none ∧
    alookup exObjA.annotations "t.a" = some JValue.null ∧
    (validate exEnvUnreg exObjA (some "t.a") [] =
        Except.ok ([unknownTagError "t.a"], []) ∧
      ∃ a b, (unknownTagError "t.a").msg = a ++ "t.a" ++ b) :=
  ⟨by decide, rfl, rfl, rfl,
   validate_unknown_tag_present exEnvUnreg exObjA "t.a" [] JValue.null (by decide) rfl rfl rfl⟩

/-- C10 counterexample: for the empty tag — not a key of the object's
annotations — the public dispatch validates all annotations instead of
returning the empty list. -/
theorem validate_empty_tag_not_noop :
    alookup exObjA.annotations "" = none ∧
    validate exEnvFail exObjA (some "") [] =
      Except.ok ([⟨"bad"⟩], [("t.a", JValue.bool true)]) ∧
    ([(⟨"bad"⟩ : VError)] : List VError) ≠ [] :=
  ⟨rfl, rfl, by decide⟩

/-- C10 amended: for every non-empty tag absent from the object's
annotations — registered or not — `validate` returns the empty list: the
presence check runs before the tag-registry lookup, so an unregistered tag
can produce its unknown-tag error only when actually present. -/
theorem validate_presence_check_first :
    ∀ (env : Env) (obj : Obj) (t : String) (c : Cache), t ≠ "" →
      alookup obj.annotations t = none →
      validate env obj (some t) c = Except.ok ([], c) := by
  intro env obj t c ht habs
  simp only [validate, if_neg ht]
  exact validateTag_absent env obj t c habs

/-- Witness for C10 amended at an unregistered, absent tag. -/
theorem validate_presence_check_first_witness :
    ("zz" ≠ "") ∧ alookup exObjA.annotations "zz" = none ∧
    validate exEnvUnreg exObjA (some "zz") [] = Except.ok ([], []) :=
  ⟨by decide, rfl, validate_presence_check_first exEnvUnreg exObjA "zz" [] (by decide) rfl⟩
